import Mathlib

/-!
Verification development for the background data-acquisition pipeline of
src/Main.py: a worker thread that fetches a JSON array of posts over HTTP,
persists them into a sqlite table posts(id INTEGER PRIMARY KEY, title, body)
with one INSERT OR REPLACE per row and a single commit, and reports
progress/status/data back to the UI through Qt signals.

The embedding is shallow: the sqlite table is a list of rows, INSERT OR
REPLACE is an explicit replace-by-key operation, the transaction is a working
copy that becomes visible only at the final commit, and the worker run is a
pure function from a modelled network response and a pre-run store to the
list of emitted events and the post-run store.
-/

/-- A row of the posts table: id INTEGER PRIMARY KEY, title TEXT, body TEXT. -/
structure Post where
  id : Int
  title : String
  body : String
deriving DecidableEq

/-- A flat JSON object of the response array, as the code reads it: only the
keys id, title and body are ever accessed, and each may be absent. -/
structure JItem where
  id? : Option Int
  title? : Option String
  body? : Option String
deriving DecidableEq

/-- Reading post["id"], post["title"], post["body"]: a missing key raises
KeyError, modelled as none. -/
def toPost? (j : JItem) : Option Post :=
  match j.id?, j.title?, j.body? with
  | some i, some t, some b => some ⟨i, t, b⟩
  | _, _, _ => none

/-- Field extraction over a whole response array: none as soon as one item
lacks a required key. -/
def toPosts? : List JItem → Option (List Post)
  | [] => some []
  | j :: rest =>
    match toPost? j, toPosts? rest with
    | some r, some rs => some (r :: rs)
    | _, _ => none

/-- The ids column of a store snapshot. -/
def ids (store : List Post) : List Int :=
  store.map Post.id

/-- SELECT by primary key: the row whose id equals k, if any. -/
def lookup (store : List Post) (k : Int) : Option Post :=
  store.find? (fun p => p.id == k)

/-- INSERT OR REPLACE INTO posts (id, title, body) VALUES (?, ?, ?): any
existing row with the same primary key is deleted and the new row inserted. -/
def upsert (r : Post) (store : List Post) : List Post :=
  (store.filter fun p => p.id != r.id) ++ [r]

/-- The whole batch applied row by row, in response order. -/
def upsertBatch (rs : List Post) (store : List Post) : List Post :=
  rs.foldl (fun st r => upsert r st) store

/-- The for-loop of save_to_database acting on the open transaction's working
state: each post's keys are read (KeyError aborts the loop, hence the
transaction) and the row is upserted. -/
def saveLoop : List JItem → List Post → Option (List Post)
  | [], work => some work
  | j :: rest, work =>
    match toPost? j with
    | none => none
    | some r => saveLoop rest (upsert r work)

/-- The table contents visible to readers after save_to_database returns or
raises: conn.commit() runs only after every row succeeded, so an exception
mid-loop leaves the transaction uncommitted and it is rolled back when the
connection goes away. -/
def savedStore (js : List JItem) (store : List Post) : List Post :=
  match saveLoop js store with
  | some w => w
  | none => store

/-- An observable emission of the worker: an update_progress signal, an
update_status signal, a logging.info record (routed into the status bar by
StatusBarLogger; the timestamp prefix added by the formatter is dropped), or
an update_data signal carrying the parsed response. -/
inductive Event where
  | progress (n : Nat)
  | status (s : String)
  | log (s : String)
  | data (items : List JItem)
deriving DecidableEq

/-- The synthetic progress ramp of for i in range(0, 101, 10). -/
def ramp : List Nat :=
  (List.range 11).map (fun i => i * 10)

/-- The modelled outcome of the single HTTP GET: the request itself raises
(connection refused / timeout), or a response arrives with an HTTP status
code and either a JSON array body or a body on which response.json() raises
(malformed JSON). -/
inductive NetResult where
  | down
  | reply (status : Nat) (body? : Option (List JItem))
deriving DecidableEq

/-- How fetch_data terminates: an aiohttp network exception, a JSON decode
exception, or the parsed array returned as-is. -/
inductive FetchOutcome where
  | netError
  | decodeError
  | ok (items : List JItem)
deriving DecidableEq

/-- The emissions of fetch_data that precede the HTTP request: the fetching
status and log line, then the synthetic 0,10,...,100 progress ramp. -/
def fetchPre : List Event :=
  Event.status "Загрузка данных с сервера..." ::
  Event.log "Начало загрузки данных с сервера..." ::
  ramp.map Event.progress

/-- The emissions of fetch_data after a successful request and parse. -/
def fetchDone : List Event :=
  [Event.log "Загрузка данных завершена.",
   Event.status "Загрузка данных завершена."]

/-- The emissions of save_to_database that precede any database work: the
saving status and log line, then the synthetic 0,10,...,100 progress ramp. -/
def savePre : List Event :=
  Event.status "Сохранение данных в базу данных..." ::
  Event.log "Начало сохранения данных в базу данных..." ::
  ramp.map Event.progress

/-- The emissions of save_to_database after the commit succeeded. -/
def saveDone : List Event :=
  [Event.log "Данные успешно сохранены в базу данных.",
   Event.status "Данные успешно сохранены."]

namespace Worker

/-- fetch_data: emits the fetching status and log line, runs the synthetic
0,10,...,100 progress ramp, then performs the GET; the response body is
parsed by response.json() and returned without any HTTP-status check or field
validation. -/
def fetch_data (net : NetResult) : List Event × FetchOutcome :=
  match net with
  | .down => (fetchPre, .netError)
  | .reply _ none => (fetchPre, .decodeError)
  | .reply _ (some items) => (fetchPre ++ fetchDone, .ok items)

/-- save_to_database: emits the saving status and log line, runs the synthetic
0,10,...,100 progress ramp, then opens the database, ensures the schema and
runs one INSERT OR REPLACE per post; commit happens only after the loop, so
the second component is some of the committed table on success and none when
a KeyError aborts the run before commit. -/
def save_to_database (data : List JItem) (store : List Post) :
    List Event × Option (List Post) :=
  match saveLoop data store with
  | none => (savePre, none)
  | some w => (savePre ++ saveDone, some w)

/-- run: emits progress 0, awaits fetch_data, awaits save_to_database, then
emits progress 100 and update_data with the parsed response. An uncaught
exception in either awaited step ends the thread at that point: the later
emissions do not happen and the store keeps its pre-run (fetch failure) or
pre-commit (save failure) contents. -/
def run (net : NetResult) (store : List Post) : List Event × List Post :=
  match fetch_data net with
  | (fe, .ok items) =>
    match save_to_database items store with
    | (se, some store2) =>
      (Event.progress 0 :: fe ++ se ++ [Event.progress 100, Event.data items],
       store2)
    | (se, none) => (Event.progress 0 :: fe ++ se, store)
  | (fe, _) => (Event.progress 0 :: fe, store)

end Worker

/-- Whether a run of the pipeline dies with an uncaught exception; this
depends only on the network outcome: request failure, malformed JSON body, or
a response item missing a required key. -/
def runFails (net : NetResult) : Bool :=
  match net with
  | .down => true
  | .reply _ none => true
  | .reply _ (some js) => (toPosts? js).isNone

/-- The update_progress values of a trace, in emission order. -/
def progressValues (evs : List Event) : List Nat :=
  evs.filterMap fun e =>
    match e with
    | .progress n => some n
    | _ => none

/-- The update_status texts of a trace, in emission order. -/
def statusTexts (evs : List Event) : List String :=
  evs.filterMap fun e =>
    match e with
    | .status s => some s
    | _ => none

/-- The logging.info texts of a trace, in emission order. -/
def logTexts (evs : List Event) : List String :=
  evs.filterMap fun e =>
    match e with
    | .log s => some s
    | _ => none

/-- The payloads handed to update_data.emit, in emission order. -/
def deliveredData (evs : List Event) : List (List JItem) :=
  evs.filterMap fun e =>
    match e with
    | .data items => some items
    | _ => none

/-- Every update_status text the worker can ever emit; all are fixed
in-progress or success messages, none names a failure. -/
def okStatusTexts : List String :=
  ["Загрузка данных с сервера...", "Загрузка данных завершена.",
   "Сохранение данных в базу данных...", "Данные успешно сохранены."]

/-- Every logging.info text the worker can ever emit; none names a failure. -/
def okLogTexts : List String :=
  ["Начало загрузки данных с сервера...", "Загрузка данных завершена.",
   "Начало сохранения данных в базу данных...",
   "Данные успешно сохранены в базу данных."]

/-- The UI-side state that the submission path touches: the progress bar
value, whether the load button is enabled, and how many worker runs are
active (0 or 1; QThread.start on an already running thread does nothing). -/
structure MainWindow where
  progress_bar : Nat
  buttonEnabled : Bool
  activeRuns : Nat
deriving DecidableEq

/-- start_loading: resets the progress bar display to 0, disables the button,
logs the fixed start message (shown in the status bar by StatusBarLogger) and
calls worker.start(), which starts a run only when none is active. Returns
the new UI state and the emitted messages. -/
def start_loading (w : MainWindow) : MainWindow × List String :=
  ({ progress_bar := 0
     buttonEnabled := false
     activeRuns := if w.activeRuns = 0 then 1 else w.activeRuns },
   ["Запуск загрузки данных..."])

/-! ### Basic facts about lookup, upsert and the batch fold -/

theorem ids_cons (p : Post) (s : List Post) : ids (p :: s) = p.id :: ids s := rfl

theorem lookup_cons (p : Post) (s : List Post) (k : Int) :
    lookup (p :: s) k = if p.id = k then some p else lookup s k := by
  by_cases h : p.id = k <;> simp [lookup, List.find?_cons, h]

theorem lookup_append_left_none (l1 l2 : List Post) (k : Int)
    (h : ∀ p ∈ l1, p.id ≠ k) : lookup (l1 ++ l2) k = lookup l2 k := by
  induction l1 with
  | nil => simp
  | cons p t ih =>
    have hp : p.id ≠ k := h p (List.mem_cons_self p t)
    rw [List.cons_append, lookup_cons, if_neg hp]
    exact ih (fun q hq => h q (List.mem_cons_of_mem p hq))

theorem lookup_filter (s : List Post) (q : Post → Bool) (k : Int)
    (h : ∀ p : Post, p.id = k → q p = true) :
    lookup (s.filter q) k = lookup s k := by
  induction s with
  | nil => simp
  | cons p t ih =>
    by_cases hq : q p
    · rw [List.filter_cons_of_pos hq, lookup_cons, lookup_cons]
      split <;> [rfl; exact ih]
    · have hne : p.id ≠ k := fun he => hq (h p he)
      rw [List.filter_cons_of_neg (by simpa using hq), lookup_cons, if_neg hne]
      exact ih

theorem lookup_upsert_self (r : Post) (s : List Post) :
    lookup (upsert r s) r.id = some r := by
  rw [upsert, lookup_append_left_none]
  · simp [lookup_cons]
  · intro p hp
    have := (List.mem_filter.mp hp).2
    simpa using this

theorem lookup_upsert_other (r : Post) (s : List Post) (k : Int)
    (hk : k ≠ r.id) : lookup (upsert r s) k = lookup s k := by
  rw [upsert]
  have h2 : lookup ([r] : List Post) k = none := by
    rw [lookup_cons, if_neg (fun he => hk he.symm)]; rfl
  have h1 : lookup (s.filter fun p => p.id != r.id) k = lookup s k := by
    apply lookup_filter
    intro p hp
    simp [hp, hk]
  rw [lookup, List.find?_append]
  rw [lookup] at h1 h2
  rw [h1, h2]
  exact Option.or_none

theorem ids_upsert (r : Post) (s : List Post) :
    ids (upsert r s) = ids (s.filter fun p => p.id != r.id) ++ [r.id] := by
  simp [ids, upsert]

theorem nodup_ids_upsert (r : Post) (s : List Post) (h : (ids s).Nodup) :
    (ids (upsert r s)).Nodup := by
  rw [ids_upsert]
  apply List.Nodup.append
  · exact List.Nodup.sublist (List.Sublist.map Post.id (List.filter_sublist s)) h
  · exact List.nodup_singleton _
  · intro a ha hb
    have hb' : a = r.id := by simpa using hb
    rcases List.mem_map.mp ha with ⟨p, hp, hpa⟩
    have := (List.mem_filter.mp hp).2
    rw [← hpa] at hb'
    simp [hb'] at this

theorem upsertBatch_nil_store (s : List Post) : upsertBatch [] s = s := rfl

theorem upsertBatch_cons (r : Post) (rs : List Post) (s : List Post) :
    upsertBatch (r :: rs) s = upsertBatch rs (upsert r s) := rfl

theorem nodup_ids_upsertBatch (rs : List Post) :
    ∀ s : List Post, (ids s).Nodup → (ids (upsertBatch rs s)).Nodup := by
  induction rs with
  | nil => intro s h; exact h
  | cons r rest ih =>
    intro s h
    rw [upsertBatch_cons]
    exact ih _ (nodup_ids_upsert r s h)

theorem lookup_upsertBatch_not_mem (rs : List Post) :
    ∀ (s : List Post) (k : Int), k ∉ ids rs →
      lookup (upsertBatch rs s) k = lookup s k := by
  induction rs with
  | nil => intro s k _; rfl
  | cons r rest ih =>
    intro s k h
    rw [ids_cons, List.mem_cons] at h
    push_neg at h
    rw [upsertBatch_cons, ih _ _ h.2, lookup_upsert_other r s k h.1]

theorem lookup_upsertBatch_mem (rs : List Post) :
    ∀ (s : List Post) (r : Post), (ids rs).Nodup → r ∈ rs →
      lookup (upsertBatch rs s) r.id = some r := by
  induction rs with
  | nil => intro s r _ hr; cases hr
  | cons r0 rest ih =>
    intro s r hnd hr
    rw [ids_cons, List.nodup_cons] at hnd
    rcases List.mem_cons.mp hr with he | hm
    · subst he
      rw [upsertBatch_cons, lookup_upsertBatch_not_mem rest _ _ hnd.1]
      exact lookup_upsert_self r s
    · exact ih _ _ hnd.2 hm

theorem upsertBatch_append_fresh (rs : List Post) :
    ∀ s : List Post, (∀ p ∈ s, p.id ∉ ids rs) → (ids rs).Nodup →
      upsertBatch rs s = s ++ rs := by
  induction rs with
  | nil => intro s _ _; simp [upsertBatch_nil_store]
  | cons r rest ih =>
    intro s hdis hnd
    rw [ids_cons, List.nodup_cons] at hnd
    have hf : s.filter (fun p => p.id != r.id) = s := by
      apply List.filter_eq_self.mpr
      intro p hp
      have : p.id ≠ r.id := fun he => hdis p hp (by rw [ids_cons, he]; simp)
      simpa using this
    have hu : upsert r s = s ++ [r] := by rw [upsert, hf]
    rw [upsertBatch_cons, hu, ih (s ++ [r]) ?fresh hnd.2, List.append_assoc]
    · rfl
    case fresh =>
      intro p hp
      rcases List.mem_append.mp hp with h1 | h2
      · exact fun hin => hdis p h1 (by rw [ids_cons]; exact List.mem_cons_of_mem _ hin)
      · have : p = r := by simpa using h2
        subst this
        exact hnd.1

theorem upsertBatch_nil_eq_self (rs : List Post) (h : (ids rs).Nodup) :
    upsertBatch rs [] = rs := by
  rw [upsertBatch_append_fresh rs [] (by intro p hp; cases hp) h]
  rfl

/-! ### Decomposition of the batch fold and idempotence -/

theorem upsert_nil (r : Post) : upsert r [] = [r] := rfl

theorem upsertBatch_decomp (rs : List Post) :
    ∀ s : List Post,
      upsertBatch rs s =
        s.filter (fun p => !(decide (p.id ∈ ids rs))) ++ upsertBatch rs [] := by
  induction rs with
  | nil =>
    intro s
    rw [upsertBatch_nil_store, upsertBatch_nil_store]
    have : s.filter (fun p => !(decide (p.id ∈ ids ([] : List Post)))) = s := by
      apply List.filter_eq_self.mpr
      intro p _
      simp [ids]
    rw [this, List.append_nil]
  | cons r rest ih =>
    intro s
    rw [upsertBatch_cons, ih (upsert r s), upsertBatch_cons r rest [],
        upsert_nil, ih [r]]
    rw [upsert, List.filter_append, List.filter_filter]
    rw [← List.append_assoc]
    congr 1
    congr 1
    apply List.filter_congr
    intro p _
    rw [ids_cons]
    by_cases h1 : p.id = r.id <;> by_cases h2 : p.id ∈ ids rest <;>
      simp [h1, h2]

theorem mem_upsertBatch_ids (rs : List Post) :
    ∀ (s : List Post) (p : Post), p ∈ upsertBatch rs s →
      p.id ∈ ids rs ∨ p ∈ s := by
  induction rs with
  | nil => intro s p h; exact Or.inr h
  | cons r rest ih =>
    intro s p h
    rw [upsertBatch_cons] at h
    rcases ih _ p h with h1 | h2
    · exact Or.inl (by rw [ids_cons]; exact List.mem_cons_of_mem _ h1)
    · rw [upsert] at h2
      rcases List.mem_append.mp h2 with hf | hr
      · exact Or.inr (List.mem_filter.mp hf).1
      · have : p = r := by simpa using hr
        subst this
        exact Or.inl (by rw [ids_cons]; exact List.mem_cons_self _ _)

theorem upsertBatch_idem (rs : List Post) (s : List Post) :
    upsertBatch rs (upsertBatch rs s) = upsertBatch rs s := by
  rw [upsertBatch_decomp rs (upsertBatch rs s), upsertBatch_decomp rs s]
  rw [List.filter_append, List.filter_filter]
  have h1 : s.filter (fun p =>
      decide (p.id ∈ ids rs) = false && !(decide (p.id ∈ ids rs))) =
      s.filter (fun p => !(decide (p.id ∈ ids rs))) := by
    apply List.filter_congr
    intro p _
    by_cases h : p.id ∈ ids rs <;> simp [h]
  have h2 : (upsertBatch rs []).filter
      (fun p => !(decide (p.id ∈ ids rs))) = [] := by
    apply List.filter_eq_nil_iff.mpr
    intro p hp
    rcases mem_upsertBatch_ids rs [] p hp with h | h
    · simp [h]
    · cases h
  rw [h2, List.append_nil]
  congr 1
  rw [← h1]
  apply List.filter_congr
  intro p _
  by_cases h : p.id ∈ ids rs <;> simp [h]

/-! ### The save loop as field extraction plus the batch fold -/

theorem saveLoop_eq_toPosts (js : List JItem) :
    ∀ w : List Post,
      saveLoop js w = (toPosts? js).map (fun rs => upsertBatch rs w) := by
  induction js with
  | nil => intro w; rfl
  | cons j rest ih =>
    intro w
    rcases hj : toPost? j with _ | r
    · simp [saveLoop, toPosts?, hj]
    · rcases hrest : toPosts? rest with _ | rs
      · have := ih (upsert r w)
        rw [hrest] at this
        simp [saveLoop, toPosts?, hj, hrest, this]
      · have := ih (upsert r w)
        rw [hrest] at this
        simp [saveLoop, toPosts?, hj, hrest, this]
        rfl

theorem toPosts?_eq_none_of_bad (js : List JItem) (j : JItem)
    (hmem : j ∈ js) (hbad : toPost? j = none) : toPosts? js = none := by
  induction js with
  | nil => cases hmem
  | cons a rest ih =>
    rcases List.mem_cons.mp hmem with he | hm
    · subst he
      simp [toPosts?, hbad]
    · rcases ha : toPost? a with _ | r
      · simp [toPosts?, ha]
      · simp [toPosts?, ha, ih hm]

theorem savedStore_of_some (js : List JItem) (rs : List Post) (s : List Post)
    (h : toPosts? js = some rs) : savedStore js s = upsertBatch rs s := by
  rw [savedStore, saveLoop_eq_toPosts, h]
  rfl

theorem savedStore_of_none (js : List JItem) (s : List Post)
    (h : toPosts? js = none) : savedStore js s = s := by
  rw [savedStore, saveLoop_eq_toPosts, h]
  rfl

/-! ### Computing the projections of an event trace -/

theorem progressValues_nil : progressValues [] = [] := rfl

theorem progressValues_cons_progress (n : Nat) (evs : List Event) :
    progressValues (Event.progress n :: evs) = n :: progressValues evs := rfl

theorem progressValues_cons_status (m : String) (evs : List Event) :
    progressValues (Event.status m :: evs) = progressValues evs := rfl

theorem progressValues_cons_log (m : String) (evs : List Event) :
    progressValues (Event.log m :: evs) = progressValues evs := rfl

theorem progressValues_cons_data (d : List JItem) (evs : List Event) :
    progressValues (Event.data d :: evs) = progressValues evs := rfl

theorem progressValues_append (l1 l2 : List Event) :
    progressValues (l1 ++ l2) = progressValues l1 ++ progressValues l2 :=
  List.filterMap_append l1 l2 _

theorem progressValues_map_progress (ns : List Nat) :
    progressValues (ns.map Event.progress) = ns := by
  induction ns with
  | nil => rfl
  | cons n t ih => rw [List.map_cons, progressValues_cons_progress, ih]

theorem statusTexts_nil : statusTexts [] = [] := rfl

theorem statusTexts_cons_progress (n : Nat) (evs : List Event) :
    statusTexts (Event.progress n :: evs) = statusTexts evs := rfl

theorem statusTexts_cons_status (m : String) (evs : List Event) :
    statusTexts (Event.status m :: evs) = m :: statusTexts evs := rfl

theorem statusTexts_cons_log (m : String) (evs : List Event) :
    statusTexts (Event.log m :: evs) = statusTexts evs := rfl

theorem statusTexts_cons_data (d : List JItem) (evs : List Event) :
    statusTexts (Event.data d :: evs) = statusTexts evs := rfl

theorem statusTexts_append (l1 l2 : List Event) :
    statusTexts (l1 ++ l2) = statusTexts l1 ++ statusTexts l2 :=
  List.filterMap_append l1 l2 _

theorem statusTexts_map_progress (ns : List Nat) :
    statusTexts (ns.map Event.progress) = [] := by
  induction ns with
  | nil => rfl
  | cons n t ih => rw [List.map_cons, statusTexts_cons_progress, ih]

theorem logTexts_nil : logTexts [] = [] := rfl

theorem logTexts_cons_progress (n : Nat) (evs : List Event) :
    logTexts (Event.progress n :: evs) = logTexts evs := rfl

theorem logTexts_cons_status (m : String) (evs : List Event) :
    logTexts (Event.status m :: evs) = logTexts evs := rfl

theorem logTexts_cons_log (m : String) (evs : List Event) :
    logTexts (Event.log m :: evs) = m :: logTexts evs := rfl

theorem logTexts_cons_data (d : List JItem) (evs : List Event) :
    logTexts (Event.data d :: evs) = logTexts evs := rfl

theorem logTexts_append (l1 l2 : List Event) :
    logTexts (l1 ++ l2) = logTexts l1 ++ logTexts l2 :=
  List.filterMap_append l1 l2 _

theorem logTexts_map_progress (ns : List Nat) :
    logTexts (ns.map Event.progress) = [] := by
  induction ns with
  | nil => rfl
  | cons n t ih => rw [List.map_cons, logTexts_cons_progress, ih]

theorem deliveredData_nil : deliveredData [] = [] := rfl

theorem deliveredData_cons_progress (n : Nat) (evs : List Event) :
    deliveredData (Event.progress n :: evs) = deliveredData evs := rfl

theorem deliveredData_cons_status (m : String) (evs : List Event) :
    deliveredData (Event.status m :: evs) = deliveredData evs := rfl

theorem deliveredData_cons_log (m : String) (evs : List Event) :
    deliveredData (Event.log m :: evs) = deliveredData evs := rfl

theorem deliveredData_cons_data (d : List JItem) (evs : List Event) :
    deliveredData (Event.data d :: evs) = d :: deliveredData evs := rfl

theorem deliveredData_append (l1 l2 : List Event) :
    deliveredData (l1 ++ l2) = deliveredData l1 ++ deliveredData l2 :=
  List.filterMap_append l1 l2 _

theorem deliveredData_map_progress (ns : List Nat) :
    deliveredData (ns.map Event.progress) = [] := by
  induction ns with
  | nil => rfl
  | cons n t ih => rw [List.map_cons, deliveredData_cons_progress, ih]

theorem progressValues_fetchPre : progressValues fetchPre = ramp := by
  rw [fetchPre, progressValues_cons_status, progressValues_cons_log,
      progressValues_map_progress]

theorem progressValues_savePre : progressValues savePre = ramp := by
  rw [savePre, progressValues_cons_status, progressValues_cons_log,
      progressValues_map_progress]

theorem progressValues_fetchDone : progressValues fetchDone = [] := rfl

theorem progressValues_saveDone : progressValues saveDone = [] := rfl

theorem deliveredData_fetchPre : deliveredData fetchPre = [] := by
  rw [fetchPre, deliveredData_cons_status, deliveredData_cons_log,
      deliveredData_map_progress]

theorem deliveredData_savePre : deliveredData savePre = [] := by
  rw [savePre, deliveredData_cons_status, deliveredData_cons_log,
      deliveredData_map_progress]

theorem deliveredData_fetchDone : deliveredData fetchDone = [] := rfl

theorem deliveredData_saveDone : deliveredData saveDone = [] := rfl

theorem statusTexts_fetchPre :
    statusTexts fetchPre = ["Загрузка данных с сервера..."] := by
  rw [fetchPre, statusTexts_cons_status, statusTexts_cons_log,
      statusTexts_map_progress]

theorem statusTexts_savePre :
    statusTexts savePre = ["Сохранение данных в базу данных..."] := by
  rw [savePre, statusTexts_cons_status, statusTexts_cons_log,
      statusTexts_map_progress]

theorem statusTexts_fetchDone :
    statusTexts fetchDone = ["Загрузка данных завершена."] := rfl

theorem statusTexts_saveDone :
    statusTexts saveDone = ["Данные успешно сохранены."] := rfl

theorem logTexts_fetchDone :
    logTexts fetchDone = ["Загрузка данных завершена."] := rfl

theorem logTexts_saveDone :
    logTexts saveDone = ["Данные успешно сохранены в базу данных."] := rfl

theorem logTexts_fetchPre :
    logTexts fetchPre = ["Начало загрузки данных с сервера..."] := by
  rw [fetchPre, logTexts_cons_status, logTexts_cons_log,
      logTexts_map_progress]

theorem logTexts_savePre :
    logTexts savePre = ["Начало сохранения данных в базу данных..."] := by
  rw [savePre, logTexts_cons_status, logTexts_cons_log,
      logTexts_map_progress]

/-! ### The four shapes of a worker run -/

theorem run_down (s : List Post) :
    Worker.run NetResult.down s = (Event.progress 0 :: fetchPre, s) := rfl

theorem run_badjson (st : Nat) (s : List Post) :
    Worker.run (NetResult.reply st none) s =
      (Event.progress 0 :: fetchPre, s) := rfl

theorem run_badfield (st : Nat) (js : List JItem) (s : List Post)
    (h : toPosts? js = none) :
    Worker.run (NetResult.reply st (some js)) s =
      (Event.progress 0 :: (fetchPre ++ fetchDone) ++ savePre, s) := by
  have hl : saveLoop js s = none := by
    rw [saveLoop_eq_toPosts, h]; rfl
  simp [Worker.run, Worker.fetch_data, Worker.save_to_database, hl]

theorem run_ok (st : Nat) (js : List JItem) (rs : List Post) (s : List Post)
    (h : toPosts? js = some rs) :
    Worker.run (NetResult.reply st (some js)) s =
      (Event.progress 0 :: (fetchPre ++ fetchDone) ++ (savePre ++ saveDone) ++
         [Event.progress 100, Event.data js],
       upsertBatch rs s) := by
  have hl : saveLoop js s = some (upsertBatch rs s) := by
    rw [saveLoop_eq_toPosts, h]; rfl
  simp [Worker.run, Worker.fetch_data, Worker.save_to_database, hl]

/-- The post-run store of a worker run: unchanged unless fetch succeeded and
the whole batch committed. -/
theorem run_final (net : NetResult) (s : List Post) :
    (Worker.run net s).2 =
      match net with
      | .down => s
      | .reply _ none => s
      | .reply _ (some js) => savedStore js s := by
  rcases net with _ | ⟨st, b⟩
  · rfl
  · rcases b with _ | js
    · rfl
    · rcases hjs : toPosts? js with _ | rs
      · rw [run_badfield st js s hjs]
        show s = savedStore js s
        rw [savedStore_of_none js s hjs]
      · rw [run_ok st js rs s hjs]
        show upsertBatch rs s = savedStore js s
        rw [savedStore_of_some js rs s hjs]

/-- The event trace of a run with a failing request, from any store. -/
theorem run_down_trace (s : List Post) :
    (Worker.run NetResult.down s).1 = Event.progress 0 :: fetchPre := rfl

/-- The event trace of a run whose response body fails to parse as JSON. -/
theorem run_badjson_trace (st : Nat) (s : List Post) :
    (Worker.run (NetResult.reply st none) s).1 =
      Event.progress 0 :: fetchPre := rfl

/-- The event trace of a run whose response parses but has a record missing a
required field: the save ramp still runs, then the loop raises KeyError. -/
theorem run_badfield_trace (st : Nat) (js : List JItem) (s : List Post)
    (h : toPosts? js = none) :
    (Worker.run (NetResult.reply st (some js))  s).1 =
      (Event.progress 0 :: (fetchPre ++ fetchDone)) ++ savePre := by
  rw [run_badfield st js s h]

/-- The event trace of a successful run. -/
theorem run_ok_trace (st : Nat) (js : List JItem) (rs : List Post)
    (s : List Post) (h : toPosts? js = some rs) :
    (Worker.run (NetResult.reply st (some js)) s).1 =
      ((Event.progress 0 :: (fetchPre ++ fetchDone)) ++
        (savePre ++ saveDone)) ++ [Event.progress 100, Event.data js] := by
  rw [run_ok st js rs s h]

/-! ### The claims -/

/-- C1: for every valid JSON array of N well-formed records returned by the
fetch (each has its id, title and body, and ids are pairwise distinct, as
records are keyed by id), a successful run from the initial empty store ends
with the posts table holding exactly those N records keyed by id, and the
update_data notification delivers exactly that record set. Rows committed by
earlier runs survive a later run (the spec's union-of-ids property), so the
exactly-these-N property is stated for the store the run itself populates,
i.e. the empty table the first run creates. -/
theorem run_success_stores_and_delivers_exactly (st : Nat) (js : List JItem)
    (rs : List Post) (hjs : toPosts? js = some rs) (hids : (ids rs).Nodup) :
    (Worker.run (NetResult.reply st (some js)) []).2 = rs ∧
    deliveredData (Worker.run (NetResult.reply st (some js)) []).1 = [js] := by
  rw [run_ok st js rs [] hjs]
  refine ⟨upsertBatch_nil_eq_self rs hids, ?_⟩
  show deliveredData (Event.progress 0 :: (fetchPre ++ fetchDone) ++
      (savePre ++ saveDone) ++ [Event.progress 100, Event.data js]) = [js]
  simp [deliveredData_append, deliveredData_cons_progress,
        deliveredData_cons_data, deliveredData_nil, deliveredData_fetchPre,
        deliveredData_fetchDone, deliveredData_savePre, deliveredData_saveDone]

/-- C1 witness: the concrete two-record response of the spec's scenario. -/
theorem run_success_stores_and_delivers_exactly_witness :
    toPosts? [⟨some 1, some "B", some "y"⟩, ⟨some 2, some "C", some "z"⟩] =
      some [⟨1, "B", "y"⟩, ⟨2, "C", "z"⟩] ∧
    (ids [⟨1, "B", "y"⟩, ⟨2, "C", "z"⟩]).Nodup ∧
    ((Worker.run (NetResult.reply 200
        (some [⟨some 1, some "B", some "y"⟩, ⟨some 2, some "C", some "z"⟩]))
        []).2 = [⟨1, "B", "y"⟩, ⟨2, "C", "z"⟩] ∧
     deliveredData (Worker.run (NetResult.reply 200
        (some [⟨some 1, some "B", some "y"⟩, ⟨some 2, some "C", some "z"⟩]))
        []).1 =
       [[⟨some 1, some "B", some "y"⟩, ⟨some 2, some "C", some "z"⟩]]) :=
  ⟨by decide, by decide,
   run_success_stores_and_delivers_exactly 200 _ _ (by decide) (by decide)⟩

/-- C2: for every record of the batch handed to the persistence step, the
INSERT OR REPLACE statement inserts it when no row with its id exists and
overwrites the title and body of the existing row with that id otherwise
(either way the row under that id afterwards is exactly the new record), and
rows whose ids are not in the batch are untouched. Stated both for the single
per-row statement and for the committed batch (with pairwise-distinct ids, as
the data model keys records by id). -/
theorem upsert_semantics (js : List JItem) (rs : List Post) (s : List Post)
    (hjs : toPosts? js = some rs) (hids : (ids rs).Nodup) :
    (∀ (r : Post) (t : List Post), lookup (upsert r t) r.id = some r) ∧
    (∀ (r : Post) (t : List Post) (k : Int), k ≠ r.id →
      lookup (upsert r t) k = lookup t k) ∧
    (∀ r ∈ rs, lookup (savedStore js s) r.id = some r) ∧
    (∀ k : Int, k ∉ ids rs → lookup (savedStore js s) k = lookup s k) := by
  rw [savedStore_of_some js rs s hjs]
  exact ⟨fun r t => lookup_upsert_self r t,
         fun r t k hk => lookup_upsert_other r t k hk,
         fun r hr => lookup_upsertBatch_mem rs s r hids hr,
         fun k hk => lookup_upsertBatch_not_mem rs s k hk⟩

/-- C2 witness: one overwritten row, one inserted row, one untouched row. -/
theorem upsert_semantics_witness :
    toPosts? [⟨some 1, some "B", some "y"⟩, ⟨some 2, some "C", some "z"⟩] =
      some [⟨1, "B", "y"⟩, ⟨2, "C", "z"⟩] ∧
    (ids [⟨1, "B", "y"⟩, ⟨2, "C", "z"⟩]).Nodup ∧
    lookup (savedStore
        [⟨some 1, some "B", some "y"⟩, ⟨some 2, some "C", some "z"⟩]
        [⟨1, "A", "x"⟩, ⟨9, "K", "w"⟩]) 1 = some ⟨1, "B", "y"⟩ ∧
    lookup (savedStore
        [⟨some 1, some "B", some "y"⟩, ⟨some 2, some "C", some "z"⟩]
        [⟨1, "A", "x"⟩, ⟨9, "K", "w"⟩]) 9 = some ⟨9, "K", "w"⟩ := by
  refine ⟨by decide, by decide, ?_, ?_⟩
  · exact (upsert_semantics
      [⟨some 1, some "B", some "y"⟩, ⟨some 2, some "C", some "z"⟩]
      [⟨1, "B", "y"⟩, ⟨2, "C", "z"⟩]
      [⟨1, "A", "x"⟩, ⟨9, "K", "w"⟩] (by decide) (by decide)).2.2.1
      ⟨1, "B", "y"⟩ (by decide)
  · have h9 := (upsert_semantics
      [⟨some 1, some "B", some "y"⟩, ⟨some 2, some "C", some "z"⟩]
      [⟨1, "B", "y"⟩, ⟨2, "C", "z"⟩]
      [⟨1, "A", "x"⟩, ⟨9, "K", "w"⟩] (by decide) (by decide)).2.2.2
      9 (by decide)
    rw [h9]
    decide

/-- C3: the persistence step commits the whole batch atomically. The call
fails exactly when some record of the batch is missing a required field;
a failed call leaves the store exactly at its pre-call state (the commit is
never reached, the transaction rolls back, zero of the batch's rows become
visible), and a successful call makes every record of the batch (ids
pairwise distinct) visible in the store. -/
theorem save_batch_atomic (js : List JItem) (s : List Post) :
    (toPosts? js = none ↔ (Worker.save_to_database js s).2 = none) ∧
    (toPosts? js = none → savedStore js s = s) ∧
    (∀ rs, toPosts? js = some rs → (ids rs).Nodup →
      ∀ r ∈ rs, lookup (savedStore js s) r.id = some r) := by
  rcases h : toPosts? js with _ | rs
  · have hl : saveLoop js s = none := by rw [saveLoop_eq_toPosts, h]; rfl
    refine ⟨by simp [Worker.save_to_database, hl], ?_, ?_⟩
    · intro _
      exact savedStore_of_none js s h
    · intro rs' hrs'
      exact Option.noConfusion hrs'
  · have hl : saveLoop js s = some (upsertBatch rs s) := by
      rw [saveLoop_eq_toPosts, h]; rfl
    refine ⟨?_, ?_, ?_⟩
    · constructor
      · intro hn
        exact Option.noConfusion hn
      · intro hsn
        simp [Worker.save_to_database, hl] at hsn
    · intro hn
      exact Option.noConfusion hn
    · intro rs' hrs' hnd r hr
      injection hrs' with he
      subst he
      rw [savedStore_of_some js rs s h]
      exact lookup_upsertBatch_mem rs s r hnd hr

/-- C3 witness: a batch whose second record lacks its title commits nothing
(the pre-call row survives unchanged and neither batch row appears), while a
fully well-formed batch makes its records visible. -/
theorem save_batch_atomic_witness :
    toPosts? [⟨some 1, some "A", some "x"⟩, ⟨some 2, none, some "z"⟩] =
      none ∧
    savedStore [⟨some 1, some "A", some "x"⟩, ⟨some 2, none, some "z"⟩]
      [⟨7, "T", "B"⟩] = [⟨7, "T", "B"⟩] ∧
    lookup (savedStore [⟨some 1, some "A", some "x"⟩] [⟨7, "T", "B"⟩]) 1 =
      some ⟨1, "A", "x"⟩ :=
  ⟨by decide,
   (save_batch_atomic [⟨some 1, some "A", some "x"⟩, ⟨some 2, none, some "z"⟩]
      [⟨7, "T", "B"⟩]).2.1 (by decide),
   (save_batch_atomic [⟨some 1, some "A", some "x"⟩] [⟨7, "T", "B"⟩]).2.2
      [⟨1, "A", "x"⟩] (by decide) (by decide) ⟨1, "A", "x"⟩ (by decide)⟩

/-- C4: after any sequence of pipeline runs starting from an empty or
well-formed store (no two rows share an id), the store still contains no two
rows with the same id: id is the primary key and INSERT OR REPLACE removes
the conflicting row before inserting. -/
theorem store_ids_nodup_invariant (runs : List NetResult) :
    ∀ s : List Post, (ids s).Nodup →
      (ids (runs.foldl (fun st n => (Worker.run n st).2) s)).Nodup := by
  induction runs with
  | nil => intro s h; exact h
  | cons n rest ih =>
    intro s h
    have hstep : (ids (Worker.run n s).2).Nodup := by
      rcases n with _ | ⟨st, b⟩
      · exact h
      · rcases b with _ | js
        · exact h
        · rcases hjs : toPosts? js with _ | rs
          · rw [run_badfield st js s hjs]
            exact h
          · rw [run_ok st js rs s hjs]
            exact nodup_ids_upsertBatch rs s h
    exact ih _ hstep

/-- C4 witness: two successful runs with overlapping ids starting from the
empty store leave pairwise-distinct ids. -/
theorem store_ids_nodup_invariant_witness :
    (ids ([] : List Post)).Nodup ∧
    (ids (([NetResult.reply 200 (some [⟨some 1, some "A", some "x"⟩]),
            NetResult.reply 200 (some [⟨some 1, some "B", some "y"⟩,
                                       ⟨some 2, some "C", some "z"⟩])] :
        List NetResult).foldl
        (fun st n => (Worker.run n st).2) [])).Nodup :=
  ⟨by decide, store_ids_nodup_invariant _ [] (by decide)⟩

/-- C5: persisting the same record batch twice in a row is idempotent: from
any starting store and any fixed network response, the store snapshot after
the second run equals the snapshot after the first run (a failed run changes
nothing, and a committed batch commits to the same rows again). -/
theorem run_idempotent (net : NetResult) (s : List Post) :
    (Worker.run net (Worker.run net s).2).2 = (Worker.run net s).2 := by
  rcases net with _ | ⟨st, b⟩
  · rfl
  · rcases b with _ | js
    · rfl
    · rcases hjs : toPosts? js with _ | rs
      · rw [run_badfield st js s hjs]
        show (Worker.run (NetResult.reply st (some js)) s).2 = s
        rw [run_badfield st js s hjs]
      · rw [run_ok st js rs s hjs]
        show (Worker.run (NetResult.reply st (some js))
            (upsertBatch rs s)).2 = upsertBatch rs s
        rw [run_ok st js rs (upsertBatch rs s) hjs]
        exact upsertBatch_idem rs s

/-- The update_progress emissions of any run take one of three shapes:
0 then the fetch ramp (run dies in fetch), 0 then both ramps (run dies in
save), or 0, both ramps and the final 100 (success). -/
theorem progressValues_run (net : NetResult) (s : List Post) :
    progressValues (Worker.run net s).1 = 0 :: ramp ∨
    progressValues (Worker.run net s).1 = 0 :: (ramp ++ ramp) ∨
    progressValues (Worker.run net s).1 = 0 :: (ramp ++ (ramp ++ [100])) := by
  rcases net with _ | ⟨st, b⟩
  · left
    rw [run_down]
    show progressValues (Event.progress 0 :: fetchPre) = 0 :: ramp
    rw [progressValues_cons_progress, progressValues_fetchPre]
  · rcases b with _ | js
    · left
      rw [run_badjson]
      show progressValues (Event.progress 0 :: fetchPre) = 0 :: ramp
      rw [progressValues_cons_progress, progressValues_fetchPre]
    · rcases hjs : toPosts? js with _ | rs
      · right; left
        rw [run_badfield st js s hjs]
        show progressValues ((Event.progress 0 :: (fetchPre ++ fetchDone)) ++
            savePre) = 0 :: (ramp ++ ramp)
        rw [progressValues_append, progressValues_cons_progress,
            progressValues_append, progressValues_fetchPre,
            progressValues_fetchDone, progressValues_savePre]
        simp
      · right; right
        rw [run_ok st js rs s hjs]
        show progressValues (((Event.progress 0 :: (fetchPre ++ fetchDone)) ++
            (savePre ++ saveDone)) ++ [Event.progress 100, Event.data js]) =
            0 :: (ramp ++ (ramp ++ [100]))
        rw [progressValues_append, progressValues_append,
            progressValues_cons_progress, progressValues_append,
            progressValues_fetchPre, progressValues_fetchDone,
            progressValues_append, progressValues_savePre,
            progressValues_saveDone]
        simp [progressValues]

/-- C6: every progress value any run emits is an integer between 0 and 100
(values are naturals, so 0 is a lower bound by type); within one pipeline
stage of a run — the fetch stage and the persist stage — the emitted values
are the monotonically non-decreasing ramp 0,10,...,100; and every run resets
progress to 0 at its start (its first emission is update_progress(0)). -/
theorem progress_contract (net : NetResult) (js : List JItem) (s : List Post) :
    (∀ n ∈ progressValues (Worker.run net s).1, n ≤ 100) ∧
    List.Chain' (· ≤ ·) (progressValues (Worker.fetch_data net).1) ∧
    List.Chain' (· ≤ ·)
      (progressValues (Worker.save_to_database js s).1) ∧
    (Worker.run net s).1.head? = some (Event.progress 0) := by
  have hramp : ∀ n ∈ ramp, n ≤ 100 := by decide
  refine ⟨?_, ?_, ?_, ?_⟩
  · intro n hn
    rcases progressValues_run net s with h | h | h <;> rw [h] at hn
    · rcases List.mem_cons.mp hn with h0 | h0
      · omega
      · exact hramp n h0
    · rcases List.mem_cons.mp hn with h0 | h0
      · omega
      · rcases List.mem_append.mp h0 with h1 | h1 <;> exact hramp n h1
    · rcases List.mem_cons.mp hn with h0 | h0
      · omega
      · rcases List.mem_append.mp h0 with h1 | h1
        · exact hramp n h1
        · rcases List.mem_append.mp h1 with h2 | h2
          · exact hramp n h2
          · simp at h2
            omega
  · have hfetch : progressValues (Worker.fetch_data net).1 = ramp := by
      rcases net with _ | ⟨st, b⟩
      · exact progressValues_fetchPre
      · rcases b with _ | js'
        · exact progressValues_fetchPre
        · show progressValues (fetchPre ++ fetchDone) = ramp
          rw [progressValues_append, progressValues_fetchPre,
              progressValues_fetchDone, List.append_nil]
    rw [hfetch, List.chain'_iff_pairwise]
    decide
  · have hsave : progressValues (Worker.save_to_database js s).1 = ramp := by
      rcases hl : saveLoop js s with _ | w
      · show progressValues (Worker.save_to_database js s).1 = ramp
        rw [Worker.save_to_database, hl]
        exact progressValues_savePre
      · rw [Worker.save_to_database, hl]
        show progressValues (savePre ++ saveDone) = ramp
        rw [progressValues_append, progressValues_savePre,
            progressValues_saveDone, List.append_nil]
    rw [hsave, List.chain'_iff_pairwise]
    decide
  · rcases net with _ | ⟨st, b⟩
    · rfl
    · rcases b with _ | js'
      · rfl
      · rcases hjs : toPosts? js' with _ | rs
        · rw [run_badfield st js' s hjs]
          rfl
        · rw [run_ok st js' rs s hjs]
          rfl

/-- C6 witness: the failing-fetch run still satisfies the bound, both stage
ramps are monotone, and the run starts at progress 0. -/
theorem progress_contract_witness :
    (100 ∈ progressValues (Worker.run NetResult.down []).1) ∧
    100 ≤ 100 ∧
    List.Chain' (· ≤ ·)
      (progressValues (Worker.fetch_data NetResult.down).1) ∧
    (Worker.run NetResult.down []).1.head? = some (Event.progress 0) :=
  ⟨by decide, (progress_contract NetResult.down [] []).1 100 (by decide),
   (progress_contract NetResult.down [] []).2.1,
   (progress_contract NetResult.down [] []).2.2.2⟩

/-- C7 counterexample: the run whose HTTP request fails (a NetworkError run)
has already emitted progress 100 during the synthetic fetch ramp, so a
failing run does advance progress to 100; moreover its only status message is
the generic fetching text also emitted by successful runs, and the only log
line the start-of-fetch text, so no emitted message describes the failure. -/
theorem failing_run_reaches_progress_100 :
    runFails NetResult.down = true ∧
    100 ∈ progressValues (Worker.run NetResult.down []).1 ∧
    statusTexts (Worker.run NetResult.down []).1 =
      ["Загрузка данных с сервера..."] ∧
    logTexts (Worker.run NetResult.down []).1 =
      ["Начало загрузки данных с сервера..."] := by
  refine ⟨rfl, by decide, by decide, by decide⟩

/-- C7 as amended: a failing run (uncaught NetworkError, DecodeError or
KeyError) emits no final record set (update_data never fires), leaves the
store at its last committed state, and every status or log message it emits
is one of the fixed in-progress texts that successful runs also emit —
the code installs no handler, so no message describes the failure — but,
contrary to the original claim, progress does reach 100: the synthetic ramp
emits 100 before the fetch result and before the commit. -/
theorem run_failure_behavior (net : NetResult) (s : List Post)
    (h : runFails net = true) :
    deliveredData (Worker.run net s).1 = [] ∧
    (Worker.run net s).2 = s ∧
    (∀ m ∈ statusTexts (Worker.run net s).1, m ∈ okStatusTexts) ∧
    (∀ m ∈ logTexts (Worker.run net s).1, m ∈ okLogTexts) ∧
    100 ∈ progressValues (Worker.run net s).1 := by
  rcases net with _ | ⟨st, b⟩
  · rw [run_down_trace]
    exact ⟨by decide, rfl, by decide, by decide, by decide⟩
  · rcases b with _ | js
    · rw [run_badjson_trace]
      exact ⟨by decide, rfl, by decide, by decide, by decide⟩
    · rcases hjs : toPosts? js with _ | rs
      · rw [run_badfield_trace st js s hjs]
        refine ⟨by decide, ?_, by decide, by decide, by decide⟩
        rw [run_final]
        show savedStore js s = s
        exact savedStore_of_none js s hjs
      · rw [runFails] at h
        simp [hjs] at h

/-- C7 witness: the NetworkError run, from the empty store. -/
theorem run_failure_behavior_witness :
    runFails NetResult.down = true ∧
    (deliveredData (Worker.run NetResult.down []).1 = [] ∧
     (Worker.run NetResult.down []).2 = [] ∧
     (∀ m ∈ statusTexts (Worker.run NetResult.down []).1,
        m ∈ okStatusTexts) ∧
     (∀ m ∈ logTexts (Worker.run NetResult.down []).1, m ∈ okLogTexts) ∧
     100 ∈ progressValues (Worker.run NetResult.down []).1) :=
  ⟨rfl, run_failure_behavior NetResult.down [] rfl⟩

/-- C8 counterexample: a 200 response whose single record lacks the required
title field is returned by fetch_data as a successful parse — the fetch
itself does not fail with DecodeError on a missing required field (and a
non-2xx status is likewise accepted: the code never checks response.status). -/
theorem fetch_accepts_missing_field :
    (Worker.fetch_data (NetResult.reply 200
        (some [⟨some 1, none, some "x"⟩]))).2 =
      FetchOutcome.ok [⟨some 1, none, some "x"⟩] ∧
    (Worker.fetch_data (NetResult.reply 404
        (some [⟨some 1, some "A", some "x"⟩]))).2 =
      FetchOutcome.ok [⟨some 1, some "A", some "x"⟩] := ⟨rfl, rfl⟩

/-- C8 as amended: fetch raises a network exception exactly on a failed
request (timeout, connection refused) and a decode exception exactly on a
malformed JSON body; it performs no HTTP-status check and no field
validation, so any parsed array — whatever the status code, and even with
records missing required fields — is returned as-is; a missing required
field instead makes the later persistence step fail (KeyError before commit),
leaving the store unchanged. -/
theorem fetch_error_conditions (st : Nat) (js : List JItem) (j : JItem)
    (s : List Post) (hmem : j ∈ js) (hbad : toPost? j = none) :
    (Worker.fetch_data NetResult.down).2 = FetchOutcome.netError ∧
    (Worker.fetch_data (NetResult.reply st none)).2 =
      FetchOutcome.decodeError ∧
    (Worker.fetch_data (NetResult.reply st (some js))).2 =
      FetchOutcome.ok js ∧
    toPosts? js = none ∧
    (Worker.save_to_database js s).2 = none ∧
    savedStore js s = s := by
  have hn := toPosts?_eq_none_of_bad js j hmem hbad
  have hl : saveLoop js s = none := by
    rw [saveLoop_eq_toPosts, hn]
    rfl
  exact ⟨rfl, rfl, rfl, hn, by simp [Worker.save_to_database, hl],
         savedStore_of_none js s hn⟩

/-- C8 witness: a batch with one well-formed record and one missing its body. -/
theorem fetch_error_conditions_witness :
    (⟨some 2, some "C", none⟩ : JItem) ∈
      [⟨some 1, some "A", some "x"⟩, (⟨some 2, some "C", none⟩ : JItem)] ∧
    toPost? ⟨some 2, some "C", none⟩ = none ∧
    ((Worker.fetch_data NetResult.down).2 = FetchOutcome.netError ∧
     (Worker.fetch_data (NetResult.reply 500 none)).2 =
       FetchOutcome.decodeError ∧
     (Worker.fetch_data (NetResult.reply 500
        (some [⟨some 1, some "A", some "x"⟩, ⟨some 2, some "C", none⟩]))).2 =
       FetchOutcome.ok [⟨some 1, some "A", some "x"⟩,
                        ⟨some 2, some "C", none⟩] ∧
     toPosts? [⟨some 1, some "A", some "x"⟩, ⟨some 2, some "C", none⟩] =
       none ∧
     (Worker.save_to_database
        [⟨some 1, some "A", some "x"⟩, ⟨some 2, some "C", none⟩]
        [⟨7, "T", "B"⟩]).2 = none ∧
     savedStore [⟨some 1, some "A", some "x"⟩, ⟨some 2, some "C", none⟩]
        [⟨7, "T", "B"⟩] = [⟨7, "T", "B"⟩]) :=
  ⟨by decide, by decide,
   fetch_error_conditions 500
     [⟨some 1, some "A", some "x"⟩, ⟨some 2, some "C", none⟩]
     ⟨some 2, some "C", none⟩ [⟨7, "T", "B"⟩] (by decide) (by decide)⟩

/-- C9 counterexample: submitting while a run is active surfaces no
BusyError and no busy message — the submission path emits exactly the same
single generic start-logging message as a submission from idle, so nothing
observable reports busy; the thread-start call is merely a no-op. -/
theorem busy_submission_not_surfaced :
    (start_loading ⟨57, false, 1⟩).2 = (start_loading ⟨0, true, 0⟩).2 ∧
    (start_loading ⟨57, false, 1⟩).2 = ["Запуск загрузки данных..."] ∧
    (start_loading ⟨57, false, 1⟩).1.activeRuns = 1 := ⟨rfl, rfl, rfl⟩

/-- C9 as amended: when a run is submitted while another is active, no
second run starts (QThread.start on a running thread does nothing, so the
number of active runs stays 1) and the active worker run is untouched — it
is a function of the network outcome and the store only, so its eventual
update_data/trace delivery is unaffected; but no BusyError is raised and no
busy indication is surfaced: the submission just resets the progress-bar
display to 0, disables the button (ordinarily the disabled button is the only
guard against a second click), and logs the same generic start message as
any other submission. -/
theorem busy_submission_no_second_run (w : MainWindow)
    (h : w.activeRuns = 1) :
    (start_loading w).1.activeRuns = 1 ∧
    (start_loading w).2 = ["Запуск загрузки данных..."] ∧
    (start_loading w).1.buttonEnabled = false ∧
    (start_loading w).1.progress_bar = 0 := by
  refine ⟨?_, rfl, rfl, rfl⟩
  simp [start_loading, h]

/-- C9 witness: a window whose worker is mid-run. -/
theorem busy_submission_no_second_run_witness :
    (⟨57, false, 1⟩ : MainWindow).activeRuns = 1 ∧
    ((start_loading ⟨57, false, 1⟩).1.activeRuns = 1 ∧
     (start_loading ⟨57, false, 1⟩).2 = ["Запуск загрузки данных..."] ∧
     (start_loading ⟨57, false, 1⟩).1.buttonEnabled = false ∧
     (start_loading ⟨57, false, 1⟩).1.progress_bar = 0) :=
  ⟨rfl, busy_submission_no_second_run ⟨57, false, 1⟩ rfl⟩

/-- C10: on a successful run the record set delivered through update_data is
exactly the in-memory parsed fetch response, not a read-back of the store: it
is delivered exactly once, as the very last emission, immediately after the
final progress=100 emission, and the whole event trace — payload included —
is identical whatever rows the store held before the run. -/
theorem data_delivery_contract (st : Nat) (js : List JItem) (rs : List Post)
    (s t : List Post) (hjs : toPosts? js = some rs) :
    deliveredData (Worker.run (NetResult.reply st (some js)) s).1 = [js] ∧
    (Worker.run (NetResult.reply st (some js)) s).1.getLast? =
      some (Event.data js) ∧
    (Worker.run (NetResult.reply st (some js)) s).1.dropLast.getLast? =
      some (Event.progress 100) ∧
    (Worker.run (NetResult.reply st (some js)) s).1 =
      (Worker.run (NetResult.reply st (some js)) t).1 := by
  rw [run_ok_trace st js rs s hjs, run_ok_trace st js rs t hjs]
  have hsplit :
      ((Event.progress 0 :: (fetchPre ++ fetchDone)) ++
          (savePre ++ saveDone)) ++ [Event.progress 100, Event.data js] =
        (((Event.progress 0 :: (fetchPre ++ fetchDone)) ++
          (savePre ++ saveDone)) ++ [Event.progress 100]) ++
          [Event.data js] := by
    simp
  refine ⟨?_, ?_, ?_, rfl⟩
  · rw [deliveredData_append, deliveredData_append,
        deliveredData_cons_progress, deliveredData_append,
        deliveredData_fetchPre, deliveredData_fetchDone,
        deliveredData_append, deliveredData_savePre, deliveredData_saveDone]
    rfl
  · rw [hsplit, List.getLast?_concat]
  · rw [hsplit, List.dropLast_concat, List.getLast?_concat]

/-- C10 witness: the spec's single-record scenario, run against two different
pre-run stores. -/
theorem data_delivery_contract_witness :
    toPosts? [⟨some 1, some "A", some "x"⟩] = some [⟨1, "A", "x"⟩] ∧
    (deliveredData (Worker.run (NetResult.reply 200
        (some [⟨some 1, some "A", some "x"⟩])) [⟨9, "K", "w"⟩]).1 =
      [[⟨some 1, some "A", some "x"⟩]] ∧
     (Worker.run (NetResult.reply 200
        (some [⟨some 1, some "A", some "x"⟩])) [⟨9, "K", "w"⟩]).1.getLast? =
      some (Event.data [⟨some 1, some "A", some "x"⟩]) ∧
     (Worker.run (NetResult.reply 200
        (some [⟨some 1, some "A", some "x"⟩]))
        [⟨9, "K", "w"⟩]).1.dropLast.getLast? =
      some (Event.progress 100) ∧
     (Worker.run (NetResult.reply 200
        (some [⟨some 1, some "A", some "x"⟩])) [⟨9, "K", "w"⟩]).1 =
      (Worker.run (NetResult.reply 200
        (some [⟨some 1, some "A", some "x"⟩])) []).1) :=
  ⟨by decide,
   data_delivery_contract 200 [⟨some 1, some "A", some "x"⟩] [⟨1, "A", "x"⟩]
     [⟨9, "K", "w"⟩] [] (by decide)⟩
